import Mathlib

/-!
Verification of the scrape-and-reconcile core of a PHP-FPM metrics exporter
(package `phpfpm`). The Go source is shallowly embedded: text is `List Char`,
Go `int64` is `Int`, fallible operations return `Except`, and the one Go-level
crash (a nil-pointer dereference) is modelled by an explicit `panicked`
result constructor.
-/

set_option maxRecDepth 4000

namespace Phpfpm

/-- Errors produced by the embedded code.  `atoiSyntax`/`atoiRange` model the
two error classes of Go `strconv.Atoi`; the remaining constructors stand for
the opaque error values of the scrape pipeline (URL parse, dial, request,
read, JSON syntax, JSON field-type mismatch). -/
inductive GoErr where
  | atoiSyntax
  | atoiRange
  | urlErr
  | dialErr
  | getErr
  | readErr
  | jsonSyntaxErr
  | typeMismatchErr
deriving DecidableEq, Repr

deriving instance DecidableEq for Except

/-- Numeric value of a decimal digit sequence, most significant first:
the accumulator loop of Go `strconv.ParseUint` specialised to base 10. -/
def digitsVal (s : List Char) : Nat :=
  s.foldl (fun a c => 10 * a + (c.toNat - 48)) 0

/-- Model of Go `strconv.Atoi` (= `strconv.ParseInt(s, 10, 0)` with 64-bit
`int`): an optional single `+`/`-` sign, then a non-empty run of decimal
digits; any other shape is a syntax error, and a value outside
`[-2^63, 2^63-1]` is a range error. -/
def strconvAtoi (s : List Char) : Except GoErr Int :=
  match s with
  | [] => .error .atoiSyntax
  | c :: rest =>
    let neg : Bool := c = '-'
    let digits : List Char := if c = '+' ∨ c = '-' then rest else s
    if digits ≠ [] ∧ digits.all Char.isDigit = true then
      let v : Int := if neg then -(digitsVal digits : Int) else (digitsVal digits : Int)
      if v < -(2 ^ 63) ∨ (2 ^ 63 - 1 : Int) < v then .error .atoiRange else .ok v
    else .error .atoiSyntax

/-- Model of `requestDuration.UnmarshalJSON`: `strconv.Atoi` on the raw
value bytes; on any `Atoi` error the duration is set to `0`; the method
itself always returns a nil error (`Except.ok`). -/
def requestDurationUnmarshalJSON (b : List Char) : Except GoErr Int :=
  match strconvAtoi b with
  | .error _ => .ok 0
  | .ok rdc => .ok rdc

/-- Model of `timestamp.UnmarshalJSON`: `strconv.Atoi` on the raw value
bytes; an `Atoi` error is returned as the decode error, otherwise the
timestamp holds `time.Unix(ts, 0)`, modelled as its epoch-second count. -/
def timestampUnmarshalJSON (b : List Char) : Except GoErr Int :=
  match strconvAtoi b with
  | .error e => .error e
  | .ok ts => .ok ts

/-- Decimal digit list of a natural number: most significant digits first,
one digit per division by ten.  `fuel` bounds the recursion; it always
exceeds the number of digits, so the out-of-fuel case is unreachable. -/
def natDecimalAux : Nat → Nat → List Char
  | 0, _ => []
  | fuel + 1, n =>
    if n < 10 then [Nat.digitChar n]
    else natDecimalAux fuel (n / 10) ++ [Nat.digitChar (n % 10)]

/-- Decimal digit list of a natural number, as printed by Go `fmt.Sprint`. -/
def natDecimal (n : Nat) : List Char := natDecimalAux (n + 1) n

/-- Model of `fmt.Sprint` on an `int64` value: decimal digits with a leading
`-` for negative values.  Used by `timestamp.MarshalJSON`. -/
def intDecimal (v : Int) : List Char :=
  if v < 0 then '-' :: natDecimal (-v).toNat else natDecimal v.toNat

/-- Model of `timestamp.MarshalJSON`: `fmt.Sprint(time.Time(*t).Unix())`,
the bare decimal of the epoch-second count. -/
def timestampMarshalJSON (t : Int) : List Char := intDecimal t

/-- The literal text `,"request uri":` of the fixer's regular expression. -/
def reqURILit : List Char := (",\"request uri\":").toList

/-- The literal text `,"content length":` of the fixer's regular expression. -/
def contentLenLit : List Char := (",\"content length\":").toList

/-- Non-greedy search for the end of the malformed request-uri field: the
shortest capture (whose characters may include `"` but not a newline, per
`.` in a Go regular expression) followed by `"` and the literal
`,"content length":`.  Returns the capture and the text after the closing
literal. -/
def nonGreedy : List Char → Option (List Char × List Char)
  | [] => none
  | c :: rest =>
    if ('"' :: contentLenLit).isPrefixOf (c :: rest) then
      some ([], (c :: rest).drop (contentLenLit.length + 1))
    else if c = '\n' then none
    else (nonGreedy rest).map (fun p => (c :: p.1, p.2))

/-- One submatch of the fixer's regular expression: the whole matched text
(`match[0]`) and the captured field content (`match[2]`). -/
structure FixMatch where
  whole : List Char
  capture : List Char
deriving DecidableEq

/-- Left-to-right scan of Go `regexp.FindAllStringSubmatch` for the pattern
`(,"request uri":)"(.*?)"(,"content length":)`: at each position try the
literal opener, an opening quote, the non-greedy capture and the closing
literal; after a match, scanning resumes at the match end (matches never
overlap).  `fuel` bounds the recursion and always exceeds the text length. -/
def scanMatches : Nat → List Char → List FixMatch
  | 0, _ => []
  | _, [] => []
  | fuel + 1, c :: rest =>
    if reqURILit.isPrefixOf (c :: rest) then
      match (c :: rest).drop reqURILit.length with
      | '"' :: afterQuote =>
        match nonGreedy afterQuote with
        | some (cap, rem) =>
          { whole := reqURILit ++ '"' :: (cap ++ '"' :: contentLenLit), capture := cap }
            :: scanMatches fuel rem
        | none => scanMatches fuel rest
      | _ => scanMatches fuel rest
    else scanMatches fuel rest

/-- All matches of the fixer's regular expression in `s`
(`re.FindAllStringSubmatch(s, -1)`). -/
def fixerMatches (s : List Char) : List FixMatch :=
  scanMatches (s.length + 1) s

/-- Encoding of one character inside a Go `json.Marshal` string literal:
standard JSON escaping plus the HTML escaping of `<`, `>`, `&` that
`json.Marshal` applies by default. -/
def jsonEscapeChar (c : Char) : List Char :=
  if c = '"' then ['\\', '"']
  else if c = '\\' then ['\\', '\\']
  else if c = '\n' then ['\\', 'n']
  else if c = '\r' then ['\\', 'r']
  else if c = '\t' then ['\\', 't']
  else if c = '<' then ['\\', 'u', '0', '0', '3', 'c']
  else if c = '>' then ['\\', 'u', '0', '0', '3', 'e']
  else if c = '&' then ['\\', 'u', '0', '0', '2', '6']
  else if c.toNat < 0x20 then
    ['\\', 'u', '0', '0', Nat.digitChar (c.toNat / 16), Nat.digitChar (c.toNat % 16)]
  else if c.toNat = 0x2028 then ['\\', 'u', '2', '0', '2', '8']
  else if c.toNat = 0x2029 then ['\\', 'u', '2', '0', '2', '9']
  else [c]

/-- Go `json.Marshal` of a string value: a quoted JSON string literal. -/
def jsonQuote (s : List Char) : List Char :=
  '"' :: s.foldr (fun c acc => jsonEscapeChar c ++ acc) ['"']

/-- Go `strings.ReplaceAll(s, old, new)` for non-empty `old`: scan left to
right, replacing every non-overlapping occurrence of `old` by `new`.
(Go's insertion behaviour for empty `old` is not modelled; the fixer only
replaces non-empty fragments.) -/
def replaceAllAux (old new : List Char) : Nat → List Char → List Char
  | 0, s => s
  | fuel + 1, s =>
    match s with
    | [] => []
    | c :: rest =>
      if old.isPrefixOf (c :: rest) then
        new ++ replaceAllAux old new fuel ((c :: rest).drop old.length)
      else c :: replaceAllAux old new fuel rest

/-- Go `strings.ReplaceAll(s, old, new)` for non-empty `old`: scan left to
right, replacing every non-overlapping occurrence of `old` by `new`.
Each step of `replaceAllAux` consumes at least one character (for non-empty
`old`), so the fuel suffices and its out-of-fuel case is unreachable.
(Go's insertion behaviour for empty `old` is not modelled; the fixer only
replaces non-empty fragments.) -/
def replaceAll (s old new : List Char) : List Char :=
  if old.isEmpty then s else replaceAllAux old new (s.length + 1) s

/-- Model of `JSONResponseFixer`: find every submatch of the pattern
`(,"request uri":)"(.*?)"(,"content length":)` in the content, and for each
one replace the whole matched fragment by the opener, the `json.Marshal`
re-encoding of the captured content, and the closer, via
`strings.ReplaceAll`. -/
def JSONResponseFixer (content : List Char) : List Char :=
  let ms := fixerMatches content
  ms.foldl
    (fun c m => replaceAll c m.whole (reqURILit ++ jsonQuote m.capture ++ contentLenLit))
    content

/-- JSON document values, as validated by Go `encoding/json`.  Number and
string atoms keep what the decoder later needs: the literal bytes for
numbers (they are handed verbatim to field decoders) and the decoded
character content for strings. -/
inductive Json where
  | null
  | bool (b : Bool)
  | num (raw : List Char)
  | str (s : List Char)
  | arr (elems : List Json)
  | obj (fields : List (List Char × Json))

/-- JSON insignificant whitespace. -/
def isJsonWs (c : Char) : Bool := c = ' ' || c = '\t' || c = '\n' || c = '\r'

/-- Skip insignificant whitespace. -/
def skipWs (s : List Char) : List Char := s.dropWhile isJsonWs

/-- Value of one hexadecimal digit, if any. -/
def hexVal (c : Char) : Option Nat :=
  if '0' ≤ c ∧ c ≤ '9' then some (c.toNat - 48)
  else if 'a' ≤ c ∧ c ≤ 'f' then some (c.toNat - 87)
  else if 'A' ≤ c ∧ c ≤ 'F' then some (c.toNat - 55)
  else none

/-- The character denoted by a single-character JSON escape. -/
def escChar (e : Char) : Option Char :=
  if e = '"' then some '"'
  else if e = '\\' then some '\\'
  else if e = '/' then some '/'
  else if e = 'b' then some (Char.ofNat 8)
  else if e = 'f' then some (Char.ofNat 12)
  else if e = 'n' then some '\n'
  else if e = 'r' then some '\r'
  else if e = 't' then some '\t'
  else none

/-- Parse a JSON string body after its opening quote: decoded content plus
the rest of the input after the closing quote.  Unescaped control
characters and unknown escapes are rejected, as in `encoding/json`.
(Surrogate-pair combination of `\uXXXX` escapes is not modelled; no claim
exercises it.) -/
def parseStringBody (s : List Char) : Option (List Char × List Char) :=
  match s with
  | [] => none
  | c :: rest =>
    if c = '"' then some ([], rest)
    else if c = '\\' then
      match rest with
      | 'u' :: h1 :: h2 :: h3 :: h4 :: rest3 =>
        match hexVal h1, hexVal h2, hexVal h3, hexVal h4 with
        | some a, some b, some c2, some d =>
          (parseStringBody rest3).map
            (fun p => (Char.ofNat (((a * 16 + b) * 16 + c2) * 16 + d) :: p.1, p.2))
        | _, _, _, _ => none
      | e :: rest2 =>
        match escChar e with
        | some ch => (parseStringBody rest2).map (fun p => (ch :: p.1, p.2))
        | none => none
      | [] => none
    else if c.toNat < 0x20 then none
    else (parseStringBody rest).map (fun p => (c :: p.1, p.2))

/-- Integer part of a JSON number: `0`, or a nonzero digit then digits. -/
def parseIntPart : List Char → Option (List Char × List Char)
  | [] => none
  | c :: rest =>
    if c = '0' then some (['0'], rest)
    else if c.isDigit then
      let p := rest.span Char.isDigit
      some (c :: p.1, p.2)
    else none

/-- Optional fraction part of a JSON number. -/
def parseFracPart : List Char → Option (List Char × List Char)
  | '.' :: rest =>
    let p := rest.span Char.isDigit
    if p.1.isEmpty then none else some ('.' :: p.1, p.2)
  | s => some ([], s)

/-- Optional exponent part of a JSON number. -/
def parseExpPart : List Char → Option (List Char × List Char)
  | [] => some ([], [])
  | c :: rest =>
    if c = 'e' ∨ c = 'E' then
      match rest with
      | [] => none
      | sg :: rest2 =>
        if sg = '+' ∨ sg = '-' then
          let p := rest2.span Char.isDigit
          if p.1.isEmpty then none else some (c :: sg :: p.1, p.2)
        else
          let p := rest.span Char.isDigit
          if p.1.isEmpty then none else some (c :: p.1, p.2)
    else some ([], c :: rest)

/-- A JSON number literal (RFC 8259 grammar): returns the literal bytes and
the rest of the input. -/
def parseNumber (s : List Char) : Option (List Char × List Char) :=
  let sr : List Char × List Char :=
    match s with
    | '-' :: r => (['-'], r)
    | _ => ([], s)
  match parseIntPart sr.2 with
  | none => none
  | some (ip, r1) =>
    match parseFracPart r1 with
    | none => none
    | some (fp, r2) =>
      match parseExpPart r2 with
      | none => none
      | some (ep, r3) => some (sr.1 ++ ip ++ fp ++ ep, r3)

mutual

/-- Parse one JSON value (after optional leading whitespace).  `fuel` bounds
the recursion; every nested value consumes at least one input character, so
`length + 1` fuel always suffices. -/
def parseValue : Nat → List Char → Option (Json × List Char)
  | 0, _ => none
  | fuel + 1, s =>
    match skipWs s with
    | [] => none
    | c :: rest =>
      if c = '"' then (parseStringBody rest).map (fun p => (Json.str p.1, p.2))
      else if c = 't' then
        if ("rue").toList.isPrefixOf rest then some (Json.bool true, rest.drop 3) else none
      else if c = 'f' then
        if ("alse").toList.isPrefixOf rest then some (Json.bool false, rest.drop 4) else none
      else if c = 'n' then
        if ("ull").toList.isPrefixOf rest then some (Json.null, rest.drop 3) else none
      else if c = '[' then
        match skipWs rest with
        | ']' :: r2 => some (Json.arr [], r2)
        | _ => (parseElems fuel rest).map (fun p => (Json.arr p.1, p.2))
      else if c = '\x7b' then
        match skipWs rest with
        | '\x7d' :: r2 => some (Json.obj [], r2)
        | _ => (parseMembers fuel rest).map (fun p => (Json.obj p.1, p.2))
      else (parseNumber (c :: rest)).map (fun p => (Json.num p.1, p.2))

/-- Parse the comma-separated elements of a non-empty JSON array, including
the closing bracket. -/
def parseElems : Nat → List Char → Option (List Json × List Char)
  | 0, _ => none
  | fuel + 1, s =>
    match parseValue fuel s with
    | none => none
    | some (v, r1) =>
      match skipWs r1 with
      | ',' :: r2 =>
        match parseElems fuel r2 with
        | none => none
        | some (vs, r3) => some (v :: vs, r3)
      | ']' :: r2 => some ([v], r2)
      | _ => none

/-- Parse the comma-separated members of a non-empty JSON object, including
the closing brace. -/
def parseMembers : Nat → List Char → Option (List (List Char × Json) × List Char)
  | 0, _ => none
  | fuel + 1, s =>
    match skipWs s with
    | '"' :: rest =>
      match parseStringBody rest with
      | none => none
      | some (key, r1) =>
        match skipWs r1 with
        | ':' :: r2 =>
          match parseValue fuel r2 with
          | none => none
          | some (v, r3) =>
            match skipWs r3 with
            | ',' :: r4 =>
              match parseMembers fuel r4 with
              | none => none
              | some (ms, r5) => some ((key, v) :: ms, r5)
            | '\x7d' :: r4 => some ([(key, v)], r4)
            | _ => none
        | _ => none
    | _ => none

end

/-- Parse a complete JSON document: one value, with nothing but whitespace
after it.  This is the validity check `encoding/json.Unmarshal` performs
(via `checkValid`) before it mutates the decode target. -/
def jsonParse (s : List Char) : Option Json :=
  match parseValue (s.length + 1) s with
  | none => none
  | some (v, rest) => if (skipWs rest).isEmpty then some v else none

/-- `PoolProcess` from the source: one PHP-FPM process.  Go `int64` fields
are `Int`; the `float64` field `LastRequestCPU` keeps the raw number
literal, since no claim inspects its floating-point value. -/
structure PoolProcess where
  PID : Int
  State : List Char
  StartTime : Int
  StartSince : Int
  Requests : Int
  RequestDuration : Int
  RequestMethod : List Char
  RequestURI : List Char
  ContentLength : Int
  User : List Char
  Script : List Char
  LastRequestCPU : List Char
  LastRequestMemory : Int
deriving DecidableEq

/-- The Go zero value of `PoolProcess`, the starting point when decoding a
slice element. -/
def zeroProcess : PoolProcess :=
  { PID := 0, State := [], StartTime := 0, StartSince := 0, Requests := 0
    RequestDuration := 0, RequestMethod := [], RequestURI := [], ContentLength := 0
    User := [], Script := [], LastRequestCPU := [], LastRequestMemory := 0 }

/-- `Pool` from the source: one configured PHP-FPM pool.  `Address`,
`ScrapeError` and `ScrapeFailures` carry the json:"-" tag in the source and
are never touched by decoding. -/
structure Pool where
  Address : List Char
  ScrapeError : Option GoErr
  ScrapeFailures : Int
  Name : List Char
  ProcessManager : List Char
  StartTime : Int
  StartSince : Int
  AcceptedConnections : Int
  ListenQueue : Int
  MaxListenQueue : Int
  ListenQueueLength : Int
  IdleProcesses : Int
  ActiveProcesses : Int
  TotalProcesses : Int
  MaxActiveProcesses : Int
  MaxChildrenReached : Int
  SlowRequests : Int
  Processes : List PoolProcess
deriving DecidableEq

/-- Record the first decode error and keep going, Go's `d.saveError`. -/
def saveErr (old : Option GoErr) (e : GoErr) : Option GoErr :=
  match old with
  | some _ => old
  | none => some e

/-- The raw value bytes Go's decoder hands to a custom `UnmarshalJSON`
method.  Number literals are passed verbatim.  The two custom decoders in
this package (`timestamp`, `requestDuration`) only feed these bytes to
`strconv.Atoi`, which fails on any non-numeric first byte, so for non-number
values only the first byte matters and the re-encoding here need not
reproduce exact escaping. -/
def jsonRawBytes : Json → List Char
  | .null => ("null").toList
  | .bool true => ("true").toList
  | .bool false => ("false").toList
  | .num raw => raw
  | .str s => jsonQuote s
  | .arr _ => ['[']
  | .obj _ => ['\x7b']

/-- Decoding a JSON value into a Go `int64` struct field: the value must be
a number literal that `strconv.ParseInt` accepts (integral and in range),
otherwise an `UnmarshalTypeError` is recorded. -/
def decodeInt64 (v : Json) : Except GoErr Int :=
  match v with
  | .num raw =>
    match strconvAtoi raw with
    | .ok n => .ok n
    | .error _ => .error .typeMismatchErr
  | _ => .error .typeMismatchErr

/-- Decoding a JSON value into a Go `string` struct field. -/
def decodeString (v : Json) : Except GoErr (List Char) :=
  match v with
  | .str s => .ok s
  | _ => .error .typeMismatchErr

/-- Decode one object member into a `PoolProcess`, keyed by the json tags of
the source struct.  Type mismatches are recorded and decoding continues
(Go saves an `UnmarshalTypeError` and moves on); unknown keys are ignored.
`request duration` goes through `requestDuration.UnmarshalJSON`, which never
fails (its error branch is kept for shape only). -/
def decodeProcessField (pr : PoolProcess) (err : Option GoErr) (k : List Char) (v : Json) :
    PoolProcess × Option GoErr :=
  if k = ("pid").toList then
    match decodeInt64 v with
    | .ok n => ({ pr with PID := n }, err)
    | .error e => (pr, saveErr err e)
  else if k = ("state").toList then
    match decodeString v with
    | .ok s => ({ pr with State := s }, err)
    | .error e => (pr, saveErr err e)
  else if k = ("start time").toList then
    match decodeInt64 v with
    | .ok n => ({ pr with StartTime := n }, err)
    | .error e => (pr, saveErr err e)
  else if k = ("start since").toList then
    match decodeInt64 v with
    | .ok n => ({ pr with StartSince := n }, err)
    | .error e => (pr, saveErr err e)
  else if k = ("requests").toList then
    match decodeInt64 v with
    | .ok n => ({ pr with Requests := n }, err)
    | .error e => (pr, saveErr err e)
  else if k = ("request duration").toList then
    match requestDurationUnmarshalJSON (jsonRawBytes v) with
    | .ok n => ({ pr with RequestDuration := n }, err)
    | .error e => (pr, saveErr err e)
  else if k = ("request method").toList then
    match decodeString v with
    | .ok s => ({ pr with RequestMethod := s }, err)
    | .error e => (pr, saveErr err e)
  else if k = ("request uri").toList then
    match decodeString v with
    | .ok s => ({ pr with RequestURI := s }, err)
    | .error e => (pr, saveErr err e)
  else if k = ("content length").toList then
    match decodeInt64 v with
    | .ok n => ({ pr with ContentLength := n }, err)
    | .error e => (pr, saveErr err e)
  else if k = ("user").toList then
    match decodeString v with
    | .ok s => ({ pr with User := s }, err)
    | .error e => (pr, saveErr err e)
  else if k = ("script").toList then
    match decodeString v with
    | .ok s => ({ pr with Script := s }, err)
    | .error e => (pr, saveErr err e)
  else if k = ("last request cpu").toList then
    match v with
    | .num raw => ({ pr with LastRequestCPU := raw }, err)
    | _ => (pr, saveErr err .typeMismatchErr)
  else if k = ("last request memory").toList then
    match decodeInt64 v with
    | .ok n => ({ pr with LastRequestMemory := n }, err)
    | .error e => (pr, saveErr err e)
  else (pr, err)

/-- Decode one element of the `processes` array into a fresh zero
`PoolProcess`. -/
def decodeProcess (v : Json) : PoolProcess × Option GoErr :=
  match v with
  | .obj fields =>
    fields.foldl (fun acc kv => decodeProcessField acc.1 acc.2 kv.1 kv.2) (zeroProcess, none)
  | _ => (zeroProcess, some .typeMismatchErr)

/-- Decode one top-level object member into the `Pool`, keyed by the json
tags of the source struct.  Returns `.error` only when the custom
`timestamp.UnmarshalJSON` of `start time` fails: Go returns a custom
unmarshaler's error immediately, aborting the rest of the decode.  Built-in
kinds record a mismatch via `saveErr` and decoding continues. -/
def decodePoolField (p : Pool) (err : Option GoErr) (k : List Char) (v : Json) :
    Except (Pool × GoErr) (Pool × Option GoErr) :=
  if k = ("pool").toList then
    match decodeString v with
    | .ok s => .ok ({ p with Name := s }, err)
    | .error e => .ok (p, saveErr err e)
  else if k = ("process manager").toList then
    match decodeString v with
    | .ok s => .ok ({ p with ProcessManager := s }, err)
    | .error e => .ok (p, saveErr err e)
  else if k = ("start time").toList then
    match timestampUnmarshalJSON (jsonRawBytes v) with
    | .ok ts => .ok ({ p with StartTime := ts }, err)
    | .error e => .error (p, e)
  else if k = ("start since").toList then
    match decodeInt64 v with
    | .ok n => .ok ({ p with StartSince := n }, err)
    | .error e => .ok (p, saveErr err e)
  else if k = ("accepted conn").toList then
    match decodeInt64 v with
    | .ok n => .ok ({ p with AcceptedConnections := n }, err)
    | .error e => .ok (p, saveErr err e)
  else if k = ("listen queue").toList then
    match decodeInt64 v with
    | .ok n => .ok ({ p with ListenQueue := n }, err)
    | .error e => .ok (p, saveErr err e)
  else if k = ("max listen queue").toList then
    match decodeInt64 v with
    | .ok n => .ok ({ p with MaxListenQueue := n }, err)
    | .error e => .ok (p, saveErr err e)
  else if k = ("listen queue len").toList then
    match decodeInt64 v with
    | .ok n => .ok ({ p with ListenQueueLength := n }, err)
    | .error e => .ok (p, saveErr err e)
  else if k = ("idle processes").toList then
    match decodeInt64 v with
    | .ok n => .ok ({ p with IdleProcesses := n }, err)
    | .error e => .ok (p, saveErr err e)
  else if k = ("active processes").toList then
    match decodeInt64 v with
    | .ok n => .ok ({ p with ActiveProcesses := n }, err)
    | .error e => .ok (p, saveErr err e)
  else if k = ("total processes").toList then
    match decodeInt64 v with
    | .ok n => .ok ({ p with TotalProcesses := n }, err)
    | .error e => .ok (p, saveErr err e)
  else if k = ("max active processes").toList then
    match decodeInt64 v with
    | .ok n => .ok ({ p with MaxActiveProcesses := n }, err)
    | .error e => .ok (p, saveErr err e)
  else if k = ("max children reached").toList then
    match decodeInt64 v with
    | .ok n => .ok ({ p with MaxChildrenReached := n }, err)
    | .error e => .ok (p, saveErr err e)
  else if k = ("slow requests").toList then
    match decodeInt64 v with
    | .ok n => .ok ({ p with SlowRequests := n }, err)
    | .error e => .ok (p, saveErr err e)
  else if k = ("processes").toList then
    match v with
    | .arr elems =>
      let results := elems.map decodeProcess
      let e2 := results.foldl
        (fun acc r => match r.2 with | some e => saveErr acc e | none => acc) err
      .ok ({ p with Processes := results.map (fun r => r.1) }, e2)
    | _ => .ok (p, saveErr err .typeMismatchErr)
  else .ok (p, err)

/-- Decode the top-level object members in document order, stopping early
only on a custom-unmarshaler error. -/
def decodePoolFields : Pool → Option GoErr → List (List Char × Json) → Pool × Option GoErr
  | p, err, [] => (p, err)
  | p, err, (k, v) :: rest =>
    match decodePoolField p err k v with
    | .error (p2, e) => (p2, some e)
    | .ok (p2, err2) => decodePoolFields p2 err2 rest

/-- Model of `json.Unmarshal(content, &p)` for a `*Pool` target: the
whole-document syntax check (`checkValid`) runs first and rejects invalid
JSON without touching the target; then top-level members are decoded in
document order.  Returns the (possibly partially updated) pool and the
first decode error. -/
def unmarshalPool (p : Pool) (content : List Char) : Pool × Option GoErr :=
  match jsonParse content with
  | none => (p, some .jsonSyntaxErr)
  | some (.obj fields) => decodePoolFields p none fields
  | some _ => (p, some .typeMismatchErr)

/-- `PoolProcessRequestIdle` from the source. -/
def PoolProcessRequestIdle : List Char := ("Idle").toList

/-- `PoolProcessRequestRunning` from the source. -/
def PoolProcessRequestRunning : List Char := ("Running").toList

/-- `PoolProcessRequestFinishing` from the source. -/
def PoolProcessRequestFinishing : List Char := ("Finishing").toList

/-- `PoolProcessRequestReadingHeaders` from the source. -/
def PoolProcessRequestReadingHeaders : List Char := ("Reading headers").toList

/-- `PoolProcessRequestInfo` from the source. -/
def PoolProcessRequestInfo : List Char := ("Getting request informations").toList

/-- `PoolProcessRequestEnding` from the source. -/
def PoolProcessRequestEnding : List Char := ("Ending").toList

/-- Loop body of `CountProcessState`, the source's `switch` on one process
state acting on the `(active, idle)` counters.  Go `switch` cases do not
fall through: the `Ending`, `Finishing` and `Getting request informations`
cases increment nothing, and the logged `default` case increments
nothing. -/
def countStateStep (ai : Nat × Nat) (pr : PoolProcess) : Nat × Nat :=
  if pr.State = PoolProcessRequestRunning then (ai.1 + 1, ai.2)
  else if pr.State = PoolProcessRequestIdle then (ai.1, ai.2 + 1)
  else if pr.State = PoolProcessRequestEnding then ai
  else if pr.State = PoolProcessRequestFinishing then ai
  else if pr.State = PoolProcessRequestInfo then ai
  else if pr.State = PoolProcessRequestReadingHeaders then (ai.1 + 1, ai.2)
  else ai

/-- `CountProcessState` from the source: run the switch over all processes
and return `(active, idle, active + idle)`. -/
def CountProcessState (processes : List PoolProcess) : Nat × Nat × Nat :=
  let c := processes.foldl countStateStep (0, 0)
  (c.1, c.2, c.1 + c.2)

/-- Result of Go `net/url.Parse` restricted to the three fields `parseURL`
reads. -/
structure URL where
  Scheme : List Char
  Host : List Char
  Path : List Char
deriving DecidableEq

/-- Go `net/url.getScheme`: scan for the `:` ending the scheme.  Letters
continue; digits and `+ - .` continue except in first position (then the
whole input has no scheme); `:` in first position is the
"missing protocol scheme" error; any other character means no scheme. -/
def getSchemeAux (orig : List Char) : Nat → List Char → Except GoErr (List Char × List Char)
  | _, [] => .ok ([], orig)
  | i, c :: rest =>
    if ('a' ≤ c ∧ c ≤ 'z') ∨ ('A' ≤ c ∧ c ≤ 'Z') then getSchemeAux orig (i + 1) rest
    else if ('0' ≤ c ∧ c ≤ '9') ∨ c = '+' ∨ c = '-' ∨ c = '.' then
      if i = 0 then .ok ([], orig) else getSchemeAux orig (i + 1) rest
    else if c = ':' then
      if i = 0 then .error .urlErr else .ok (orig.take i, orig.drop (i + 1))
    else .ok ([], orig)

/-- ASCII lower-casing of a scheme, as `url.Parse` applies. -/
def schemeLower (s : List Char) : List Char :=
  s.map (fun c => if 'A' ≤ c ∧ c ≤ 'Z' then Char.ofNat (c.toNat + 32) else c)

/-- Restricted model of Go `net/url.Parse`, faithful for the address shapes
this exporter is configured with: `scheme://host/path` and
`scheme:///socket-path`, without query, fragment, userinfo or
percent-escapes (none occur in any claim's input).  A control character or
a leading `:` is a parse error, as in `net/url`; on error `url.Parse`
returns a nil `*URL` together with the error. -/
def urlParse (rawurl : List Char) : Except GoErr URL :=
  if rawurl.any (fun c => c.toNat < 0x20 ∨ c.toNat = 0x7f) then .error .urlErr
  else
    match getSchemeAux rawurl 0 rawurl with
    | .error e => .error e
    | .ok (scheme, rest) =>
      if ("//").toList.isPrefixOf rest then
        let rest2 := rest.drop 2
        let authority := rest2.takeWhile (fun c => ¬(c = '/' ∨ c = '?' ∨ c = '#'))
        let after := rest2.drop authority.length
        let path := after.takeWhile (fun c => ¬(c = '?' ∨ c = '#'))
        .ok { Scheme := schemeLower scheme, Host := authority, Path := path }
      else .ok { Scheme := schemeLower scheme, Host := [], Path := rest }

/-- A Go computation that either returns normally or panics. -/
inductive GoResult (α : Type) where
  | panicked
  | ok (a : α)
deriving DecidableEq

/-- Model of `parseURL` from the source, producing
`(scheme, address, path)`.  When `url.Parse` fails it returns a nil `*URL`,
and the source's error branch then reads `uri.Scheme`, `uri.Host` and
`uri.Path` from that nil pointer — a nil-pointer dereference, modelled as
`panicked`.  On success the error result is always nil, so it is omitted:
for a `unix` scheme the path is split on `;` into socket address and
optional status-path override, otherwise host and path are passed
through. -/
def parseURL (rawurl : List Char) : GoResult (List Char × List Char × List Char) :=
  match urlParse rawurl with
  | .error _ => .panicked
  | .ok uri =>
    if uri.Scheme = ("unix").toList then
      let result := uri.Path.splitOn ';'
      let addr := result.headD []
      let path := if result.length > 1 then result.getD 1 [] else []
      .ok (uri.Scheme, addr, path)
    else .ok (uri.Scheme, uri.Host, uri.Path)

/-- Outcomes of the three external FastCGI steps of one scrape attempt:
`fcgiclient.DialTimeout`, `fcgi.Get`, and `ioutil.ReadAll` of the response
body. -/
structure ScrapeEnv where
  dial : Except GoErr Unit
  get : Except GoErr Unit
  body : Except GoErr (List Char)

/-- Model of `Pool.error`: record the error in `ScrapeError` and increment
`ScrapeFailures`. -/
def poolError (p : Pool) (e : GoErr) : Pool :=
  { p with ScrapeError := some e, ScrapeFailures := p.ScrapeFailures + 1 }

/-- Result of one `Pool.Update` call: the updated pool and returned error,
or a panic that never returns to the caller. -/
inductive UpdateResult where
  | panicked
  | returned (p : Pool) (err : Option GoErr)
deriving DecidableEq

/-- Model of `Pool.Update` from the source: clear `ScrapeError`, parse the
address, dial, issue the request, read the body, apply `JSONResponseFixer`,
and `json.Unmarshal` into the pool.  Every failing step returns
`p.error(err)`; the network steps' outcomes come from `env`. -/
def Pool.Update (p : Pool) (env : ScrapeEnv) : UpdateResult :=
  let p := { p with ScrapeError := none }
  match parseURL p.Address with
  | .panicked => .panicked
  | .ok _ =>
    match env.dial with
    | .error e => .returned (poolError p e) (some e)
    | .ok _ =>
      match env.get with
      | .error e => .returned (poolError p e) (some e)
      | .ok _ =>
        match env.body with
        | .error e => .returned (poolError p e) (some e)
        | .ok content =>
          let content := JSONResponseFixer content
          match unmarshalPool p content with
          | (p2, some e) => .returned (poolError p2 e) (some e)
          | (p2, none) => .returned p2 none

/-! Specification-side counting functions used to state the reconciler
claim, plus the concrete inputs the claims are settled on. -/

/-- The states the claim counts as active: `Running` or `Reading headers`. -/
def isActiveState (pr : PoolProcess) : Bool :=
  decide (pr.State = PoolProcessRequestRunning ∨ pr.State = PoolProcessRequestReadingHeaders)

/-- The state the claim counts as idle: `Idle`. -/
def isIdleState (pr : PoolProcess) : Bool :=
  decide (pr.State = PoolProcessRequestIdle)

/-- Processes classified as active: state `Running` or `Reading headers`. -/
def activeCount (ps : List PoolProcess) : Nat := ps.countP isActiveState

/-- Processes classified as idle: state `Idle`. -/
def idleCount (ps : List PoolProcess) : Nat := ps.countP isIdleState

/-- A process whose only relevant datum is its state string. -/
def stateOnly (s : List Char) : PoolProcess := { zeroProcess with State := s }

/-- The six-state process list of the reconciler claim (and of the source's
own unit test). -/
def demoProcesses : List PoolProcess :=
  [stateOnly PoolProcessRequestIdle, stateOnly PoolProcessRequestRunning,
   stateOnly PoolProcessRequestReadingHeaders, stateOnly PoolProcessRequestInfo,
   stateOnly PoolProcessRequestFinishing, stateOnly PoolProcessRequestEnding]

/-- The Go zero value of `Pool`. -/
def zeroPool : Pool :=
  { Address := [], ScrapeError := none, ScrapeFailures := 0, Name := [], ProcessManager := []
    StartTime := 0, StartSince := 0, AcceptedConnections := 0, ListenQueue := 0
    MaxListenQueue := 0, ListenQueueLength := 0, IdleProcesses := 0, ActiveProcesses := 0
    TotalProcesses := 0, MaxActiveProcesses := 0, MaxChildrenReached := 0, SlowRequests := 0
    Processes := [] }

/-- Raw request-uri content with embedded unescaped quotes and shell
metacharacters, for the malformed-URI repair claim. -/
def c2inner : List Char := ("/a.php?x=|%20echo%20\"ct\"%3B%20id").toList

/-- Document text before the malformed field content. -/
def c2pre : List Char :=
  ("\x7b\"pool\":\"www\",\"processes\":[\x7b\"pid\":1,\"state\":\"Idle\",\"request method\":\"GET\",\"request uri\":\"").toList

/-- Document text after the malformed field content. -/
def c2post : List Char :=
  ("\",\"content length\":0,\"user\":\"-\",\"script\":\"-\"\x7d]\x7d").toList

/-- A status payload whose request-uri field contains the raw `c2inner`
content with its unescaped quotes: invalid JSON as delivered. -/
def c2payload : List Char := c2pre ++ c2inner ++ c2post

/-- A document that is already valid JSON and whose request-uri value
contains a backslash-escaped quote (raw text `x\"y`). -/
def c3input : List Char :=
  ("\x7b\"a\":1,\"request uri\":\"x\\\"y\",\"content length\":2\x7d").toList

/-- Valid JSON whose captured request-uri fragment `/idx` needs no
escaping. -/
def c3cleanInput : List Char :=
  ("\x7b\"n\":7,\"request uri\":\"/idx\",\"content length\":3\x7d").toList

/-- A fragment with an embedded unescaped quote in the request-uri field. -/
def c4input : List Char := (",\"request uri\":\"a\"b\",\"content length\":").toList

/-- A fragment whose captured request-uri content `/other` needs no
escaping. -/
def c4cleanInput : List Char := (",\"request uri\":\"/other\",\"content length\":0").toList

/-- The out-of-range request-duration payload of the source's own unit test
(issue 10), with insignificant whitespace removed: process 23 has an
in-range duration `295`, process 24 the out-of-range
`18446744073709550774`. -/
def c5payload : List Char :=
  ("\x7b\"pool\":\"www\",\"process manager\":\"dynamic\",\"start time\":1519474655,\"start since\":302035,\"accepted conn\":44144,\"listen queue\":0,\"max listen queue\":1,\"listen queue len\":128,\"idle processes\":1,\"active processes\":1,\"total processes\":2,\"max active processes\":2,\"max children reached\":0,\"slow requests\":0,\"processes\":[\x7b\"pid\":23,\"state\":\"Idle\",\"start time\":1519474655,\"start since\":302035,\"requests\":22071,\"request duration\":295,\"request method\":\"GET\",\"request uri\":\"/status?json&full\",\"content length\":0,\"user\":\"-\",\"script\":\"-\",\"last request cpu\":0.00,\"last request memory\":2097152\x7d,\x7b\"pid\":24,\"state\":\"Running\",\"start time\":1519474655,\"start since\":302035,\"requests\":22073,\"request duration\":18446744073709550774,\"request method\":\"GET\",\"request uri\":\"/status?json&full\",\"content length\":0,\"user\":\"-\",\"script\":\"-\",\"last request cpu\":0.00,\"last request memory\":0\x7d]\x7d").toList

/-- A syntactically valid payload whose `pool` member decodes before its
malformed `start time` member fails the `timestamp` unmarshaler. -/
def c6payload : List Char := ("\x7b\"pool\":\"changed\",\"start time\":\"x\"\x7d").toList

/-- A pool holding data from an earlier successful scrape. -/
def c6oldPool : Pool :=
  { zeroPool with
    Address := ("tcp://127.0.0.1:9000/status").toList,
    Name := ("old").toList,
    StartTime := 111,
    AcceptedConnections := 7,
    ScrapeFailures := 5,
    Processes := [stateOnly PoolProcessRequestIdle] }

/-- A scrape in which every network step succeeds and the body is
`c6payload`. -/
def c6env : ScrapeEnv := { dial := .ok (), get := .ok (), body := .ok c6payload }

/-- A pool holding prior data, used to witness the frame property. -/
def c6framePool : Pool :=
  { zeroPool with
    Address := ("tcp://127.0.0.1:9000/status").toList,
    Name := ("keep").toList,
    StartTime := 222,
    ScrapeFailures := 2 }

/-- A scrape whose dial step fails. -/
def c6dialFailEnv : ScrapeEnv :=
  { dial := .error .dialErr, get := .ok (), body := .ok [] }

/-- A pool whose configured address `://` makes `url.Parse` fail (missing
protocol scheme). -/
def c7pool : Pool := { zeroPool with Address := ("://").toList }

/-- A benign environment: all network steps succeed with an empty-object
body. -/
def c7env : ScrapeEnv :=
  { dial := .ok (), get := .ok (), body := .ok (("\x7b\x7d").toList) }

/-- Whether a Go computation returned normally. -/
def GoResult.isOk : GoResult α → Bool
  | .panicked => false
  | .ok _ => true

/-- The pool carried by a normal `Pool.Update` return (`zeroPool` is a
placeholder for the panic case, which never returns a pool). -/
def updatedPool : UpdateResult → Pool
  | .panicked => zeroPool
  | .returned p _ => p

/-- The error carried by a normal `Pool.Update` return. -/
def updateErr : UpdateResult → Option GoErr
  | .panicked => none
  | .returned _ e => e

/-! Theorems.  Helper lemmas come first, then one theorem per claim (with
witnesses and counterexamples where required). -/

/-- C2: for a payload whose request-uri field content — delimited by the
literal text `,"request uri":` before it and `,"content length":` after
it — contains an unescaped embedded quote, `JSONResponseFixer` produces
bytes that parse successfully as JSON and whose decoded `RequestURI` equals
the original raw inner content exactly, embedded quotes included.  (The
payload does not parse before the repair.) -/
theorem jsonResponseFixer_repairs_embedded_quote :
    ('"' ∈ c2inner) ∧
    (jsonParse c2payload).isSome = false ∧
    (jsonParse (JSONResponseFixer c2payload)).isSome = true ∧
    (unmarshalPool zeroPool (JSONResponseFixer c2payload)).2 = none ∧
    ((unmarshalPool zeroPool (JSONResponseFixer c2payload)).1.Processes.headD
      zeroProcess).RequestURI = c2inner := by
  decide

/-- C3 counterexample: `c3input` is already valid JSON (its request-uri
value contains the escape sequence `\"`), yet `JSONResponseFixer` does not
return it unchanged — the captured fragment is re-escaped. -/
theorem jsonResponseFixer_alters_valid_json :
    (jsonParse c3input).isSome = true ∧ JSONResponseFixer c3input ≠ c3input := by
  decide

/-- C4 counterexample: `JSONResponseFixer` is not idempotent — on a payload
with an embedded quote in the request-uri field, a second application
escapes the escapes introduced by the first. -/
theorem jsonResponseFixer_not_idempotent :
    JSONResponseFixer (JSONResponseFixer c4input) ≠ JSONResponseFixer c4input := by
  decide

/-- C5: a request-duration literal exceeding the signed 64-bit maximum
decodes to `0` and an in-range literal decodes to itself, and a document
containing both decodes without error. -/
theorem requestDuration_decode_spec :
    requestDurationUnmarshalJSON (("18446744073709550774").toList) = .ok 0 ∧
    requestDurationUnmarshalJSON (("295").toList) = .ok 295 ∧
    (unmarshalPool zeroPool c5payload).2 = none ∧
    (unmarshalPool zeroPool c5payload).1.Processes.map (fun pr => pr.RequestDuration) =
      [295, 0] := by
  decide

/-- C7: on a malformed address, `url.Parse` fails, and `Pool.Update` then
panics (nil `*URL` dereference in `parseURL`'s error branch) instead of
returning with the error recorded — the code slip behind the claim. -/
theorem pool_update_panics_on_malformed_address :
    urlParse c7pool.Address = .error .urlErr ∧ Pool.Update c7pool c7env = .panicked := by
  decide

/-- C8: `parseURL` maps the three address forms of the claim to exactly the
scheme, target and path it states. -/
theorem parseURL_spec :
    parseURL (("tcp://127.0.0.1:9000/status").toList) =
      .ok (("tcp").toList, ("127.0.0.1:9000").toList, ("/status").toList) ∧
    parseURL (("unix:///tmp/php.sock;/status").toList) =
      .ok (("unix").toList, ("/tmp/php.sock").toList, ("/status").toList) ∧
    parseURL (("unix:///tmp/php.sock").toList) =
      .ok (("unix").toList, ("/tmp/php.sock").toList, ([] : List Char)) := by
  decide

/-- C6 counterexample: a scrape that fails at the decode step on a
syntactically valid payload returns with `ScrapeError` set, yet the pool
name has already been overwritten by the member decoded before the failing
`start time` field — prior data is not fully retained on this failure
path. -/
theorem pool_update_decode_error_overwrites_prior_data :
    updateErr (Pool.Update c6oldPool c6env) ≠ none ∧
    (updatedPool (Pool.Update c6oldPool c6env)).ScrapeError ≠ none ∧
    (updatedPool (Pool.Update c6oldPool c6env)).Name ≠ c6oldPool.Name ∧
    (updatedPool (Pool.Update c6oldPool c6env)).Name = ("changed").toList := by
  decide

/-- The switch body adds one to the active counter exactly on active states
and one to the idle counter exactly on `Idle`. -/
theorem countStateStep_eq (ai : Nat × Nat) (pr : PoolProcess) :
    countStateStep ai pr =
      (ai.1 + (if isActiveState pr then 1 else 0),
       ai.2 + (if isIdleState pr then 1 else 0)) := by
  unfold countStateStep isActiveState isIdleState
  by_cases h1 : pr.State = PoolProcessRequestRunning
  · simp +decide [h1]
  · by_cases h2 : pr.State = PoolProcessRequestIdle
    · simp +decide [h1, h2]
    · by_cases h3 : pr.State = PoolProcessRequestEnding
      · simp +decide [h1, h2, h3]
      · by_cases h4 : pr.State = PoolProcessRequestFinishing
        · simp +decide [h1, h2, h3, h4]
        · by_cases h5 : pr.State = PoolProcessRequestInfo
          · simp +decide [h1, h2, h3, h4, h5]
          · by_cases h6 : pr.State = PoolProcessRequestReadingHeaders
            · simp +decide [h1, h2, h3, h4, h5, h6]
            · simp [h1, h2, h3, h4, h5, h6]

/-- Running the switch from any accumulator adds the active and idle counts
of the list. -/
theorem foldl_countStateStep (ps : List PoolProcess) (a i : Nat) :
    ps.foldl countStateStep (a, i) = (a + activeCount ps, i + idleCount ps) := by
  induction ps generalizing a i with
  | nil => simp [activeCount, idleCount]
  | cons pr rest ih =>
    rw [List.foldl_cons, countStateStep_eq, ih]
    simp only [activeCount, idleCount, List.countP_cons, Prod.mk.injEq]
    constructor <;> omega

/-- C1: `CountProcessState` counts `Running` and `Reading headers` states
as active and `Idle` states as idle; `Finishing`,
`Getting request informations`, `Ending` and unrecognised states count in
neither bucket; the returned total is `active + idle`, not the list length;
and on the list `[Idle, Running, Reading headers, Getting request
informations, Finishing, Ending]` it returns `active = 2`, `idle = 1`,
`total = 3` (≠ 6, the length). -/
theorem countProcessState_spec :
    (∀ ps, CountProcessState ps =
      (activeCount ps, idleCount ps, activeCount ps + idleCount ps)) ∧
    CountProcessState demoProcesses = (2, 1, 3) ∧
    (CountProcessState demoProcesses).2.2 ≠ demoProcesses.length := by
  refine ⟨fun ps => ?_, by decide, by decide⟩
  simp only [CountProcessState]
  rw [foldl_countStateStep]
  simp

/-- C10: `requestDuration.UnmarshalJSON` is total and never reports an
error: for every input byte sequence it returns a nil error with the parsed
integer when `strconv.Atoi` succeeds and `0` otherwise.  By contrast, the
`timestamp` decoder succeeds exactly when `strconv.Atoi` does, and in
particular errors on a quoted string while the duration decoder does not. -/
theorem requestDuration_never_errors :
    (∀ b, requestDurationUnmarshalJSON b =
      .ok (match strconvAtoi b with | .ok v => v | .error _ => 0)) ∧
    (∀ b, (timestampUnmarshalJSON b).isOk = (strconvAtoi b).isOk) ∧
    timestampUnmarshalJSON (("\"abc\"").toList) = .error .atoiSyntax ∧
    requestDurationUnmarshalJSON (("\"abc\"").toList) = .ok 0 := by
  refine ⟨fun b => ?_, fun b => ?_, by decide, by decide⟩
  · unfold requestDurationUnmarshalJSON
    cases h : strconvAtoi b <;> simp [h]
  · unfold timestampUnmarshalJSON
    cases h : strconvAtoi b <;> simp [h, Except.isOk]

/-- `Nat.digitChar` of a digit below ten has the expected code point. -/
theorem digitChar_toNat (d : Nat) (h : d < 10) : (Nat.digitChar d).toNat = 48 + d := by
  interval_cases d <;> decide

/-- `Nat.digitChar` of a digit below ten is a decimal digit character. -/
theorem digitChar_isDigit (d : Nat) (h : d < 10) : (Nat.digitChar d).isDigit = true := by
  interval_cases d <;> decide

/-- Appending one digit multiplies the accumulated value by ten. -/
theorem digitsVal_append_digit (xs : List Char) (d : Char) :
    digitsVal (xs ++ [d]) = 10 * digitsVal xs + (d.toNat - 48) := by
  unfold digitsVal
  rw [List.foldl_append]
  rfl

/-- With enough fuel, `natDecimalAux` prints a non-empty all-digit list
whose value is the printed number. -/
theorem natDecimalAux_spec (fuel : Nat) : ∀ n, n < fuel →
    natDecimalAux fuel n ≠ [] ∧ (natDecimalAux fuel n).all Char.isDigit = true ∧
      digitsVal (natDecimalAux fuel n) = n := by
  induction fuel with
  | zero => intro n h; omega
  | succ fuel ih =>
    intro n h
    unfold natDecimalAux
    by_cases h10 : n < 10
    · rw [if_pos h10]
      refine ⟨by simp, ?_, ?_⟩
      · simp [digitChar_isDigit n h10]
      · simp [digitsVal, digitChar_toNat n h10]
    · rw [if_neg h10]
      have hrec := ih (n / 10) (by omega)
      refine ⟨by simp, ?_, ?_⟩
      · simp [List.all_append, hrec.2.1, digitChar_isDigit (n % 10) (by omega)]
      · rw [digitsVal_append_digit, hrec.2.2, digitChar_toNat (n % 10) (by omega)]
        omega

/-- A decimal digit character is neither sign character. -/
theorem digit_not_sign {c : Char} (h : c.isDigit = true) : ¬(c = '+' ∨ c = '-') := by
  rintro (rfl | rfl) <;> exact absurd h (by decide)

/-- `strconv.Atoi` parses back a printed natural number within range. -/
theorem strconvAtoi_natDecimal (n : Nat) (hn : (n : Int) ≤ 2 ^ 63 - 1) :
    strconvAtoi (natDecimal n) = .ok n := by
  obtain ⟨hne, hall, hval⟩ := natDecimalAux_spec (n + 1) n (by omega)
  show strconvAtoi (natDecimalAux (n + 1) n) = .ok n
  cases hs : natDecimalAux (n + 1) n with
  | nil => exact absurd hs hne
  | cons c rest =>
    rw [hs] at hall hval
    have hcd : c.isDigit = true := by
      have := List.all_eq_true.mp hall c (by simp)
      simpa using this
    have hsign := digit_not_sign hcd
    have hnegc : (decide (c = '-')) = false :=
      decide_eq_false (fun hc => hsign (Or.inr hc))
    simp only [strconvAtoi, hnegc, if_neg hsign]
    rw [if_pos ⟨List.cons_ne_nil c rest, hall⟩]
    simp only [Bool.false_eq_true, if_false, hval]
    rw [if_neg (by omega)]

/-- `strconv.Atoi` parses back a printed negative number within range. -/
theorem strconvAtoi_neg_natDecimal (m : Nat) (hle : (m : Int) ≤ 2 ^ 63) :
    strconvAtoi ('-' :: natDecimal m) = .ok (-(m : Int)) := by
  obtain ⟨hne, hall, hval⟩ := natDecimalAux_spec (m + 1) m (by omega)
  have hne' : natDecimal m ≠ [] := hne
  have hall' : (natDecimal m).all Char.isDigit = true := hall
  have hval' : digitsVal (natDecimal m) = m := hval
  rw [show strconvAtoi ('-' :: natDecimal m) =
      (if natDecimal m ≠ [] ∧ (natDecimal m).all Char.isDigit = true then
        (if (-(digitsVal (natDecimal m) : Int)) < -(2 ^ 63) ∨
            (2 ^ 63 - 1 : Int) < (-(digitsVal (natDecimal m) : Int)) then
          (.error .atoiRange : Except GoErr Int)
         else .ok (-(digitsVal (natDecimal m) : Int)))
       else .error .atoiSyntax) from rfl]
  rw [if_pos ⟨hne', hall'⟩]
  simp only [hval']
  rw [if_neg (by omega)]

/-- C9: encoding a whole-epoch-seconds timestamp emits the bare decimal
integer of its epoch seconds, and decoding that output returns the original
timestamp — the encode-then-decode round trip is the identity on every
epoch-second count representable as a Go `int64`. -/
theorem timestamp_roundtrip (ts : Int) (hlo : -(2 ^ 63) ≤ ts) (hhi : ts ≤ 2 ^ 63 - 1) :
    timestampUnmarshalJSON (timestampMarshalJSON ts) = .ok ts := by
  unfold timestampMarshalJSON intDecimal
  by_cases hneg : ts < 0
  · rw [if_pos hneg]
    have h1 : (((-ts).toNat : Int)) = -ts := Int.toNat_of_nonneg (by omega)
    have h2 := strconvAtoi_neg_natDecimal (-ts).toNat (by omega)
    unfold timestampUnmarshalJSON
    rw [h2]
    rw [show (-(((-ts).toNat : Nat) : Int)) = ts by omega]
  · rw [if_neg hneg]
    have h2 := strconvAtoi_natDecimal ts.toNat (by omega)
    unfold timestampUnmarshalJSON
    rw [h2]
    rw [show ((ts.toNat : Nat) : Int) = ts by omega]

/-- C9 witness: the round trip at the concrete epoch second 1519474655. -/
theorem timestamp_roundtrip_witness :
    timestampUnmarshalJSON (timestampMarshalJSON 1519474655) = .ok 1519474655 :=
  timestamp_roundtrip 1519474655 (by decide) (by decide)

/-- A verified prefix can be split off and re-appended. -/
theorem isPrefixOf_append_drop :
    ∀ (l s : List Char), l.isPrefixOf s = true → l ++ s.drop l.length = s := by
  intro l
  induction l with
  | nil => intro s _; simp
  | cons a l ih =>
    intro s h
    cases s with
    | nil => simp [List.isPrefixOf] at h
    | cons b s =>
      simp only [List.isPrefixOf, Bool.and_eq_true, beq_iff_eq] at h
      obtain ⟨rfl, h2⟩ := h
      simp only [List.length_cons, List.drop_succ_cons, List.cons_append]
      rw [ih s h2]

/-- Replacing a non-empty pattern by itself changes nothing. -/
theorem replaceAllAux_self (old : List Char) (hne : old ≠ []) :
    ∀ fuel s, s.length ≤ fuel → replaceAllAux old old fuel s = s := by
  intro fuel
  induction fuel with
  | zero => intro s _; rfl
  | succ fuel ih =>
    intro s h
    match s with
    | [] => rfl
    | c :: rest =>
      show (if old.isPrefixOf (c :: rest) then
          old ++ replaceAllAux old old fuel ((c :: rest).drop old.length)
        else c :: replaceAllAux old old fuel rest) = c :: rest
      by_cases hp : old.isPrefixOf (c :: rest)
      · rw [if_pos hp]
        have hlen : 0 < old.length := List.length_pos.mpr hne
        have hdl : ((c :: rest).drop old.length).length ≤ fuel := by
          simp only [List.length_drop, List.length_cons]
          simp only [List.length_cons] at h
          omega
        rw [ih _ hdl]
        exact isPrefixOf_append_drop old (c :: rest) hp
      · rw [if_neg hp, ih rest (by simp at h; omega)]

/-- `strings.ReplaceAll` with identical pattern and replacement is the
identity. -/
theorem replaceAll_self (s old : List Char) : replaceAll s old old = s := by
  unfold replaceAll
  by_cases h : old.isEmpty
  · rw [if_pos h]
  · rw [if_neg h]
    exact replaceAllAux_self old (by simpa using h) (s.length + 1) s (by omega)

/-- Every match found by the scanner has the shape
`,"request uri":` + `"` + capture + `"` + `,"content length":`. -/
theorem scanMatches_whole (fuel : Nat) :
    ∀ s m, m ∈ scanMatches fuel s →
      m.whole = reqURILit ++ '"' :: (m.capture ++ '"' :: contentLenLit) := by
  induction fuel with
  | zero => intro s m h; simp [scanMatches] at h
  | succ fuel ih =>
    intro s m h
    match s with
    | [] => simp [scanMatches] at h
    | c :: rest =>
      unfold scanMatches at h
      split at h
      · split at h
        · split at h
          · rcases List.mem_cons.mp h with h | h
            · subst h; rfl
            · exact ih _ m h
          · exact ih _ m h
        · exact ih _ m h
      · exact ih _ m h

/-- If every captured fragment re-encodes to exactly its original quoted
form, the fixer's replacement loop leaves the text unchanged. -/
theorem fixer_foldl_id (L : List FixMatch) :
    ∀ c0, (∀ m ∈ L, reqURILit ++ jsonQuote m.capture ++ contentLenLit = m.whole) →
      L.foldl
        (fun c m => replaceAll c m.whole (reqURILit ++ jsonQuote m.capture ++ contentLenLit))
        c0 = c0 := by
  induction L with
  | nil => intro c0 _; rfl
  | cons m L ih =>
    intro c0 h
    rw [List.foldl_cons, h m (List.mem_cons_self m L), replaceAll_self]
    exact ih c0 (fun m' hm' => h m' (List.mem_cons_of_mem _ hm'))

/-- The fixer is the identity on any input all of whose captured
request-uri fragments are their own JSON encoding (no character that JSON
string escaping alters). -/
theorem fixer_id_of_clean (c : List Char)
    (h : ∀ m ∈ fixerMatches c, jsonQuote m.capture = '"' :: (m.capture ++ ['"'])) :
    JSONResponseFixer c = c := by
  unfold JSONResponseFixer
  apply fixer_foldl_id
  intro m hm
  have hw := scanMatches_whole (c.length + 1) c m hm
  rw [h m hm, hw]
  simp

/-- C3 amended: `JSONResponseFixer` returns its input unchanged whenever
every captured request-uri fragment is its own JSON encoding — in
particular on valid JSON whose request-uri values contain no backslashes,
quotes, control characters or HTML-escaped characters.  (It alters valid
JSON whose request-uri value contains a backslash escape sequence, by
re-escaping it.) -/
theorem jsonResponseFixer_id_on_clean (c : List Char)
    (h : ∀ m ∈ fixerMatches c, jsonQuote m.capture = '"' :: (m.capture ++ ['"'])) :
    JSONResponseFixer c = c :=
  fixer_id_of_clean c h

/-- C3 amended witness: a concrete valid-JSON document with a clean
request-uri fragment is returned unchanged. -/
theorem jsonResponseFixer_id_on_clean_witness :
    (∀ m ∈ fixerMatches c3cleanInput,
      jsonQuote m.capture = '"' :: (m.capture ++ ['"'])) ∧
    (jsonParse c3cleanInput).isSome = true ∧
    JSONResponseFixer c3cleanInput = c3cleanInput :=
  ⟨by decide, by decide, jsonResponseFixer_id_on_clean c3cleanInput (by decide)⟩

/-- C4 amended: `JSONResponseFixer` is idempotent on every input whose
captured request-uri fragments are their own JSON encoding (it is the
identity there); it is not idempotent in general, because a capture
containing a quote or backslash is re-escaped by each application. -/
theorem jsonResponseFixer_idempotent_on_clean (c : List Char)
    (h : ∀ m ∈ fixerMatches c, jsonQuote m.capture = '"' :: (m.capture ++ ['"'])) :
    JSONResponseFixer (JSONResponseFixer c) = JSONResponseFixer c := by
  rw [fixer_id_of_clean c h, fixer_id_of_clean c h]

/-- C4 amended witness: idempotence at a concrete clean fragment. -/
theorem jsonResponseFixer_idempotent_on_clean_witness :
    (∀ m ∈ fixerMatches c4cleanInput,
      jsonQuote m.capture = '"' :: (m.capture ++ ['"'])) ∧
    JSONResponseFixer (JSONResponseFixer c4cleanInput) = JSONResponseFixer c4cleanInput :=
  ⟨by decide, jsonResponseFixer_idempotent_on_clean c4cleanInput (by decide)⟩

/-- C6 amended: a scrape that fails at the connect, request or read step,
or because the (repaired) payload is not syntactically valid JSON, returns
with the error recorded in `ScrapeError`, `ScrapeFailures` incremented by
one, and every other field of the pool — name, start time, counters,
gauges and process list — exactly as before the call.  (A decode error on
a syntactically valid document may instead overwrite fields decoded before
the failing member, and an address-parse failure panics rather than
returning.) -/
theorem pool_update_early_failure_frame (p : Pool) (env : ScrapeEnv) (e : GoErr)
    (hparse : (parseURL p.Address).isOk = true)
    (hfail :
      env.dial = .error e ∨
      (env.dial = .ok () ∧ env.get = .error e) ∨
      (env.dial = .ok () ∧ env.get = .ok () ∧ env.body = .error e) ∨
      (∃ b, env.dial = .ok () ∧ env.get = .ok () ∧ env.body = .ok b ∧
        jsonParse (JSONResponseFixer b) = none ∧ e = .jsonSyntaxErr)) :
    Pool.Update p env =
      .returned { p with ScrapeError := some e, ScrapeFailures := p.ScrapeFailures + 1 }
        (some e) := by
  obtain ⟨spa, hp⟩ : ∃ spa, parseURL p.Address = .ok spa := by
    cases hq : parseURL p.Address with
    | panicked => rw [hq] at hparse; simp [GoResult.isOk] at hparse
    | ok spa => exact ⟨spa, rfl⟩
  unfold Pool.Update
  dsimp only
  rw [hp]
  rcases hfail with hd | ⟨hd, hg⟩ | ⟨hd, hg, hb⟩ | ⟨b, hd, hg, hb, hjp, he⟩
  · rw [hd]; rfl
  · rw [hd, hg]; rfl
  · rw [hd, hg, hb]; rfl
  · subst he
    rw [hd, hg, hb]
    dsimp only
    simp only [unmarshalPool, hjp]
    rfl

/-- C6 amended witness: a failed dial leaves the concrete pool's fields
untouched while recording the error and counting the failure. -/
theorem pool_update_early_failure_frame_witness :
    (parseURL c6framePool.Address).isOk = true ∧
    Pool.Update c6framePool c6dialFailEnv =
      .returned
        { c6framePool with
          ScrapeError := some .dialErr,
          ScrapeFailures := c6framePool.ScrapeFailures + 1 }
        (some .dialErr) :=
  ⟨by decide,
    pool_update_early_failure_frame c6framePool c6dialFailEnv .dialErr (by decide) (Or.inl rfl)⟩

end Phpfpm
